import Mathlib

/-!
Verification development for `catalyst/exchange/exchange_algorithm.py`.

The Python module is embedded shallowly: floats become `ℚ`, timestamps become
`Int`, Python dicts become association lists, in-place mutation becomes
explicit state passing, and raised exceptions become `Except` values (with the
already-applied mutations carried alongside, since a Python exception does not
roll back side effects).
-/

set_option autoImplicit false

namespace Catalyst

/-! ## Data model -/

/-- An asset, identified by its sid, tagged with the name of the exchange it
trades on (`asset.exchange` in the Python code). -/
structure Asset where
  sid : Nat
  exchange : String
deriving DecidableEq, Repr

/-- A position in the ledger / position tracker: asset plus the mutable fields
that `tracker.update_position` overwrites. -/
structure Position where
  asset : Asset
  amount : ℚ
  last_sale_price : ℚ
  last_sale_date : Int
deriving DecidableEq, Repr

/-- Errors raised by exchange gateway calls: `ExchangeRequestError` is the
transient, retryable kind; every other kind is fatal (non-retryable). -/
inductive ExchangeError where
  | requestError (msg : String)
  | fatalError (msg : String)
deriving DecidableEq, Repr

/-! ## Order-parameter conversion
(`ExchangeTradingAlgorithmBase.__convert_order_params_for_blotter`) -/

/-- Modelled from the spec: the execution-style class hierarchy
(`catalyst.finance.execution.MarketOrder` and
`catalyst.exchange.exchange_execution.ExchangeLimitOrder`) is repository code
not under src/.  Per the spec (section 9) the styles form a closed variant
with a market constructor and a limit constructor carrying a price; the two
classes are distinct subclasses of `ExecutionStyle`, so no object is an
instance of both at once. -/
inductive ExecutionStyle where
  | marketOrder
  | exchangeLimitOrder (limit_price : ℚ)
deriving DecidableEq, Repr

/-- Python `isinstance(style, MarketOrder)`. -/
def isinstance_MarketOrder : ExecutionStyle → Bool
  | .marketOrder => true
  | .exchangeLimitOrder _ => false

/-- Python `isinstance(style, ExchangeLimitOrder)`. -/
def isinstance_ExchangeLimitOrder : ExecutionStyle → Bool
  | .marketOrder => false
  | .exchangeLimitOrder _ => true

/-- Python `style.__class__.__name__`. -/
def styleClassName : ExecutionStyle → String
  | .marketOrder => "MarketOrder"
  | .exchangeLimitOrder _ => "ExchangeLimitOrder"

/-- Errors raised by order-parameter validation. -/
inductive OrderParamError where
  | orderTypeNotSupported (order_type : String)
  | valueError (msg : String)
deriving DecidableEq, Repr

/-- Python truthiness of an optional float argument: `None` and `0.0` are
falsy, every other float is truthy. -/
def truthy : Option ℚ → Bool
  | none => false
  | some x => decide (x ≠ 0)

/-- The ValueError message used when both a style and a limit price are given. -/
def conflict_msg : String :=
  "An order style and a limit price was included in the order. " ++
  "Please pick one to avoid any possible conflict."

/-- Embedding of `__convert_order_params_for_blotter` (lines 96-129): a pure
validation function, run before any call to an exchange gateway. -/
def convert_order_params_for_blotter (limit_price stop_price : Option ℚ)
    (style : Option ExecutionStyle) : Except OrderParamError ExecutionStyle :=
  if truthy stop_price then
    Except.error (OrderParamError.orderTypeNotSupported "stop")
  else
    match style with
    | some s =>
      if limit_price ≠ none then
        Except.error (OrderParamError.valueError conflict_msg)
      else if !isinstance_ExchangeLimitOrder s || !isinstance_MarketOrder s then
        Except.error (OrderParamError.orderTypeNotSupported (styleClassName s))
      else
        Except.ok s
    | none =>
      if truthy limit_price then
        Except.ok (ExecutionStyle.exchangeLimitOrder (limit_price.getD 0))
      else
        Except.ok ExecutionStyle.marketOrder

/-! ## Portfolio reconciliation
(`ExchangeTradingAlgorithmLive.synchronize_portfolio`, lines 517-582) -/

/-- Lookup of the position for an asset in an association-list ledger
(Python dict access `positions[asset]`). -/
def lookupPosition : List Position → Asset → Option Position
  | [], _ => none
  | p :: rest, a => if p.asset = a then some p else lookupPosition rest a

/-- Embedding of `tracker.update_position(asset, amount, last_sale_date,
last_sale_price)`: overwrite the entry for the asset, creating it when
absent. -/
def update_position (l : List Position) (a : Asset) (amount : ℚ)
    (last_sale_price : ℚ) (last_sale_date : Int) : List Position :=
  match l with
  | [] => [⟨a, amount, last_sale_price, last_sale_date⟩]
  | p :: rest =>
    if p.asset = a then ⟨a, amount, last_sale_price, last_sale_date⟩ :: rest
    else p :: update_position rest a amount last_sale_price last_sale_date

/-- The per-exchange view of `group_assets_by_exchange(assets)`: the assets
whose `exchange` attribute names the given exchange. -/
def group_assets_by_exchange (assets : List Asset) (exchange_name : String) :
    List Asset :=
  assets.filter (fun a => a.exchange = exchange_name)

/-- Modelled from the spec: the result of one gateway `sync_positions` call
(`catalyst.exchange.exchange.Exchange.sync_positions` is repository code not
under src/).  The gateway returns the pair `(cash, positions_value)` and
mutates the passed position list in place; the mutated list is carried here
as an explicit `positions` component. -/
structure SyncOutput where
  cash : ℚ
  positions_value : ℚ
  positions : List Position
deriving DecidableEq, Repr

/-- An exchange gateway as seen by `synchronize_portfolio`: a name (the key in
`self.exchanges`), a base currency, and the `sync_positions` operation, which
may raise. -/
structure Exchange where
  name : String
  base_currency : String
  sync_positions : List Position → Bool → ℚ → Except ExchangeError SyncOutput

/-- The algorithm state that `synchronize_portfolio` touches:
`self.simulate_orders`, `self.portfolio.cash`, and the position store shared
by `self.portfolio.positions` and `self.perf_tracker.position_tracker`. -/
structure AlgoState where
  simulate_orders : Bool
  cash : ℚ
  positions : List Position
deriving DecidableEq, Repr

/-- The position list handed to one exchange's `sync_positions`: the snapshot
positions whose assets group to that exchange
(`[positions[asset] for asset in assets if asset in positions]`, after
`copy.deepcopy` — a no-op here since values are immutable). -/
def syncArgs (snapshot : List Position) (exchange_name : String) :
    List Position :=
  (group_assets_by_exchange (snapshot.map Position.asset)
      exchange_name).filterMap (lookupPosition snapshot)

/-- Merging one exchange's sync output into the tracker: the loop
`for position in exchange_positions: tracker.update_position(...)`. -/
def applySync (tracker : List Position) (out : SyncOutput) : List Position :=
  out.positions.foldl
    (fun t p => update_position t p.asset p.amount p.last_sale_price
      p.last_sale_date)
    tracker

/-- The `for exchange_name in self.exchanges` loop of
`synchronize_portfolio`.  A raised `ExchangeError` propagates, but the tracker
updates already applied for earlier exchanges remain in place (Python
exceptions do not undo side effects), so the tracker is returned in both
outcomes.  The `base_currency` local of the source is set from the first
exchange but never read afterwards, so it is not threaded here. -/
def syncLoop (snapshot : List Position) (check_balances : Bool) (cash : ℚ) :
    List Exchange → ℚ → ℚ → List Position →
    Except ExchangeError (ℚ × ℚ) × List Position
  | [], total_cash, total_positions_value, tracker =>
    (Except.ok (total_cash, total_positions_value), tracker)
  | ex :: rest, total_cash, total_positions_value, tracker =>
    match ex.sync_positions (syncArgs snapshot ex.name) check_balances cash with
    | Except.error e => (Except.error e, tracker)
    | Except.ok out =>
      syncLoop snapshot check_balances cash rest (total_cash + out.cash)
        (total_positions_value + out.positions_value) (applySync tracker out)

/-- Embedding of `synchronize_portfolio` (lines 517-582).  Returns the raised
error or the pair `(total_cash, total_positions_value)`, together with the
post-call algorithm state.  The source never assigns `self.portfolio.cash`,
so the state update only replaces the position store. -/
def synchronize_portfolio (st : AlgoState) (exchanges : List Exchange) :
    Except ExchangeError (ℚ × ℚ) × AlgoState :=
  let check_balances := !st.simulate_orders
  match syncLoop st.positions check_balances st.cash exchanges 0 0
      st.positions with
  | (Except.error e, tracker) =>
    (Except.error e, { st with positions := tracker })
  | (Except.ok (total_cash, total_positions_value), tracker) =>
    (Except.ok
        (if !check_balances then st.cash else total_cash,
          total_positions_value),
      { st with positions := tracker })

/-! ## Bounded retry (`handle_data` retry-wrapped portfolio sync, lines
689-697, with the attempts configuration of lines 74-85) -/

/-- The outcome of a retry-wrapped call: the final result, the number of times
the action was invoked, and the sleep durations taken between attempts. -/
structure RetryTrace (α : Type) where
  result : Except ExchangeError α
  calls : Nat
  sleeps : List Nat
deriving Repr

/-- Modelled from the spec: the bounded-retry combinator (`redo.retry`, an
external dependency whose source is not under src/), per spec section 4.1 —
the action is called; a failure whose kind is retryable causes a sleep of the
fixed interval and a retry, up to the given total number of attempts; a
non-retryable failure propagates immediately; after the last attempt the last
error is re-raised.  `k` is the index of the current call and the second
argument the remaining attempts. -/
def retryGo {α : Type} (action : Nat → Except ExchangeError α)
    (retryable : ExchangeError → Bool) (sleeptime : Nat) :
    Nat → Nat → RetryTrace α
  | _, 0 => ⟨Except.error (ExchangeError.fatalError "retry: no attempts"), 0, []⟩
  | k, 1 => ⟨action k, 1, []⟩
  | k, n + 2 =>
    match action k with
    | Except.ok a => ⟨Except.ok a, 1, []⟩
    | Except.error e =>
      if retryable e then
        let t := retryGo action retryable sleeptime (k + 1) (n + 1)
        ⟨t.result, t.calls + 1, sleeptime :: t.sleeps⟩
      else ⟨Except.error e, 1, []⟩

/-- The retry entry point: run the action from call 0 with the given total
attempt budget. -/
def retry {α : Type} (action : Nat → Except ExchangeError α) (attempts : Nat)
    (sleeptime : Nat) (retryable : ExchangeError → Bool) : RetryTrace α :=
  retryGo action retryable sleeptime 0 attempts

/-- Entry `synchronize_portfolio_attempts` of `self.attempts` (line 78). -/
def synchronize_portfolio_attempts : Nat := 5

/-- Entry `retry_sleeptime` of `self.attempts` (line 84). -/
def retry_sleeptime : Nat := 5

/-- Whether an error is an `ExchangeRequestError`, the only member of the
`retry_exceptions` tuple at the `handle_data` call site (line 694). -/
def is_exchange_request_error : ExchangeError → Bool
  | ExchangeError.requestError _ => true
  | ExchangeError.fatalError _ => false

/-- The retry-wrapped portfolio sync performed by `handle_data`
(lines 689-697): retry `synchronize_portfolio` with 5 attempts, sleeptime 5,
retrying only `ExchangeRequestError`. -/
def handle_data_portfolio_sync {α : Type}
    (action : Nat → Except ExchangeError α) : RetryTrace α :=
  retry action synchronize_portfolio_attempts retry_sleeptime
    is_exchange_request_error

/-! ## Performance tracker state and checkpoint resume
(`ExchangeTradingAlgorithmLive.get_generator`, lines 463-509) -/

/-- A processed transaction, keyed in `period.processed_transactions` by its
timestamp. -/
structure Txn where
  sid : Nat
  dt : Int
deriving DecidableEq, Repr

/-- An order record, keyed in `period.orders_by_modified` by its modification
timestamp. -/
structure OrderRec where
  order_id : Nat
  dt : Int
deriving DecidableEq, Repr

/-- A value stored in a stats dictionary. -/
inductive StatsVal where
  | num (q : ℚ)
  | time (t : Int)
  | txnList (l : List Txn)
  | ordList (l : List OrderRec)
  | posList (l : List Position)
deriving DecidableEq, Repr

/-- The cumulative-performance period object
(`tracker.cumulative_performance`): the fields read by
`prepare_period_stats` and by the checkpoint-resume block. -/
structure CumulativePerformance where
  starting_cash : ℚ
  ending_cash : ℚ
  starting_value : ℚ
  ending_value : ℚ
  starting_exposure : ℚ
  ending_exposure : ℚ
  cash_flow : ℚ
  pnl : ℚ
  returns : ℚ
  position_tracker : List Position
deriving DecidableEq, Repr

/-- Today's performance period object (`tracker.todays_performance`). -/
structure TodaysPerformance where
  starting_cash : ℚ
  starting_value : ℚ
  starting_exposure : ℚ
  position_tracker : List Position
  processed_transactions : List (Int × List Txn)
  orders_by_modified : List (Int × List OrderRec)
deriving DecidableEq, Repr

/-- The performance tracker (`self.perf_tracker`): the fields read by
`prepare_period_stats` plus the two period objects. -/
structure PerformanceTracker where
  period_start : Int
  period_end : Int
  capital_base : ℚ
  progress : ℚ
  cumulative_performance : CumulativePerformance
  todays_performance : TodaysPerformance
  cumulative_risk_metrics : List (String × StatsVal)
deriving DecidableEq, Repr

/-- Embedding of the checkpoint-resume block of `get_generator` (lines
479-498): `perf` is what `get_algo_object(key='cumulative_performance')`
returned — `none` models the first-run NotFound case.  When a snapshot is
found, the tracker's cumulative performance is replaced by it and today's
period restarts from its ending values; when not, startup proceeds cold with
the freshly created tracker. -/
def resume_from_checkpoint (tracker : PerformanceTracker)
    (perf : Option CumulativePerformance) : PerformanceTracker :=
  match perf with
  | none => tracker
  | some p =>
    { tracker with
      cumulative_performance := p
      todays_performance := { tracker.todays_performance with
        starting_cash := p.ending_cash
        starting_exposure := p.ending_exposure
        starting_value := p.ending_value
        position_tracker := p.position_tracker } }

/-- Modelled from the spec: `save_algo_object` followed by `get_algo_object`
on the cumulative key (`catalyst.exchange.utils.exchange_utils`, not under
src/) returns the stored snapshot — the CheckpointStore contract of spec
section 4.6. -/
def checkpoint_roundtrip (obj : CumulativePerformance) :
    Option CumulativePerformance :=
  some obj

/-! ## Period stats (`ExchangeTradingAlgorithmBase.prepare_period_stats`,
lines 219-293) -/

/-- Modelled from the spec: the position statistics computed by
`cum.position_tracker.stats()` (catalyst.finance.performance, repository code
not under src/), passed here as an input. -/
structure PositionStats where
  short_exposure : ℚ
  long_exposure : ℚ
  short_value : ℚ
  long_value : ℚ
  longs_count : ℚ
  shorts_count : ℚ
deriving DecidableEq, Repr

/-- Modelled from the spec: the output of `calc_period_stats`
(catalyst.finance.performance.period, repository code not under src/),
passed here as an input. -/
structure PeriodLeverage where
  gross_leverage : ℚ
  net_leverage : ℚ
deriving DecidableEq, Repr

/-- Python dict assignment `stats[k] = v` on an association list: overwrite
the entry when the key is present, append it otherwise. -/
def setKey : List (String × StatsVal) → String → StatsVal →
    List (String × StatsVal)
  | [], k, v => [(k, v)]
  | kv :: rest, k, v =>
    if kv.1 = k then (k, v) :: rest else kv :: setKey rest k v

/-- Python dict read `stats[k]` on an association list. -/
def getKey : List (String × StatsVal) → String → Option StatsVal
  | [], _ => none
  | kv :: rest, k => if kv.1 = k then some kv.2 else getKey rest k

/-- Python `stats.update(other)`: assign every key of `other` in order. -/
def updateKeys (d : List (String × StatsVal))
    (kvs : List (String × StatsVal)) : List (String × StatsVal) :=
  kvs.foldl (fun acc kv => setKey acc kv.1 kv.2) d

/-- The filtering loops of `prepare_period_stats` (lines 279-291): walk a
date-keyed dictionary and collect, in order, the entries of every date with
`start_dt <= date < end_dt`. -/
def windowEntries {β : Type} (dict : List (Int × List β)) (start_dt end_dt : Int) :
    List β :=
  (dict.filter (fun pr => decide (start_dt ≤ pr.1) && decide (pr.1 < end_dt))).foldl
    (fun acc pr => acc ++ pr.2) []

/-- Embedding of `prepare_period_stats` (lines 219-293): build the stats
dictionary, merge cumulative risk metrics and recorded variables, then set
positions and the transactions and orders of the `[start_dt, end_dt)`
window. -/
def prepare_period_stats (tracker : PerformanceTracker)
    (pos_stats : PositionStats) (leverage : PeriodLeverage)
    (recorded_vars : List (String × StatsVal)) (start_dt end_dt : Int) :
    List (String × StatsVal) :=
  let cum := tracker.cumulative_performance
  let stats : List (String × StatsVal) :=
    [("period_start", StatsVal.time tracker.period_start),
     ("period_end", StatsVal.time tracker.period_end),
     ("capital_base", StatsVal.num tracker.capital_base),
     ("progress", StatsVal.num tracker.progress),
     ("ending_value", StatsVal.num cum.ending_value),
     ("ending_exposure", StatsVal.num cum.ending_exposure),
     ("capital_used", StatsVal.num cum.cash_flow),
     ("starting_value", StatsVal.num cum.starting_value),
     ("starting_exposure", StatsVal.num cum.starting_exposure),
     ("starting_cash", StatsVal.num cum.starting_cash),
     ("ending_cash", StatsVal.num cum.ending_cash),
     ("portfolio_value", StatsVal.num (cum.ending_cash + cum.ending_value)),
     ("pnl", StatsVal.num cum.pnl),
     ("returns", StatsVal.num cum.returns),
     ("period_open", StatsVal.time start_dt),
     ("period_close", StatsVal.time end_dt),
     ("gross_leverage", StatsVal.num leverage.gross_leverage),
     ("net_leverage", StatsVal.num leverage.net_leverage),
     ("short_exposure", StatsVal.num pos_stats.short_exposure),
     ("long_exposure", StatsVal.num pos_stats.long_exposure),
     ("short_value", StatsVal.num pos_stats.short_value),
     ("long_value", StatsVal.num pos_stats.long_value),
     ("longs_count", StatsVal.num pos_stats.longs_count),
     ("shorts_count", StatsVal.num pos_stats.shorts_count)]
  let stats := updateKeys stats tracker.cumulative_risk_metrics
  let stats := updateKeys stats recorded_vars
  let stats := setKey stats "positions"
    (StatsVal.posList cum.position_tracker)
  let stats := setKey stats "transactions"
    (StatsVal.txnList (windowEntries
      tracker.todays_performance.processed_transactions start_dt end_dt))
  setKey stats "orders"
    (StatsVal.ordList (windowEntries
      tracker.todays_performance.orders_by_modified start_dt end_dt))

/-! ## Shutdown (`interrupt_algorithm` / `signal_handler`, lines 383-424,
and the `is_running` gate of `handle_data`, lines 670-671) -/

/-- The live-algorithm state touched by the shutdown path: the `is_running`
flag, whether an `analyze` callback is configured (`self._analyze is not
None`), the daily-perf checkpoints on disk, plus observable histories — the
argument of every `analyze` invocation so far and every `sys.exit` code
issued — and the count of ticks whose `handle_data` body ran. -/
structure LiveAlgoState where
  is_running : Bool
  has_analyze : Bool
  daily_perf_store : List (List (String × StatsVal))
  analyze_calls : List (List (List (String × StatsVal)))
  exit_codes : List Nat
  frame_count : Nat
deriving DecidableEq, Repr

/-- Embedding of `interrupt_algorithm` (lines 383-407): clear `is_running`;
when an analyze callback is configured, load every daily checkpoint and call
`analyze` on the reconstructed history; then `sys.exit(0)`.  There is no
guard on `is_running`, so the body runs in full on every invocation. -/
def interrupt_algorithm (st : LiveAlgoState) : LiveAlgoState :=
  let st1 := { st with is_running := false }
  let st2 :=
    if st1.has_analyze then
      { st1 with analyze_calls := st1.analyze_calls ++ [st1.daily_perf_store] }
    else st1
  { st2 with exit_codes := st2.exit_codes ++ [0] }

/-- Embedding of `signal_handler` (lines 409-424): log, then delegate to
`interrupt_algorithm`. -/
def signal_handler (st : LiveAlgoState) : LiveAlgoState :=
  interrupt_algorithm st

/-- The `is_running` gate at the top of the live `handle_data` (lines
670-671): once shutdown has begun, a tick returns immediately without
touching the state; otherwise the tick body runs (abstracted as bumping the
processed-frame count). -/
def handle_data_live (st : LiveAlgoState) : LiveAlgoState :=
  if !st.is_running then st
  else { st with frame_count := st.frame_count + 1 }

/-! ## Concrete fixtures used by witnesses and counterexamples -/

/-- A concrete asset trading on exchange "bitfinex". -/
def assetA : Asset := ⟨1, "bitfinex"⟩

/-- A concrete asset trading on exchange "poloniex". -/
def assetB : Asset := ⟨2, "poloniex"⟩

/-- A concrete held position in `assetA`. -/
def positionA : Position := ⟨assetA, 1, 10, 0⟩

/-- A concrete held position in `assetB`. -/
def positionB : Position := ⟨assetB, 3, 4, 0⟩

/-- A live-mode algorithm state (simulate_orders false) holding one position
on each of the two exchanges. -/
def liveState : AlgoState := ⟨false, 1000, [positionA, positionB]⟩

/-- A simulated-order-mode algorithm state (simulate_orders true). -/
def simState : AlgoState := ⟨true, 1000, [positionA, positionB]⟩

/-- A live-mode state holding only the bitfinex position. -/
def stSmall : AlgoState := ⟨false, 1000, [positionA]⟩

/-- A gateway for "bitfinex" reporting the spec's example figures
(cash 100, positions_value 50) and bumping each synced position's amount
to 2. -/
def exchangeA : Exchange :=
  ⟨"bitfinex", "usd", fun ps _ _ =>
    Except.ok ⟨100, 50, ps.map (fun p => { p with amount := 2 })⟩⟩

/-- A gateway for "poloniex" reporting the spec's example figures
(cash 20, positions_value 5) and leaving positions as passed. -/
def exchangeB : Exchange :=
  ⟨"poloniex", "usd", fun ps _ _ => Except.ok ⟨20, 5, ps⟩⟩

/-- A gateway for "poloniex" whose sync always raises a fatal
(non-retryable) error. -/
def exchangeFatal : Exchange :=
  ⟨"poloniex", "usd", fun _ _ _ =>
    Except.error (ExchangeError.fatalError "invalid credentials")⟩

/-- An action that fails with a transient request error on every call. -/
def transientAction : Nat → Except ExchangeError (ℚ × ℚ) :=
  fun _ => Except.error (ExchangeError.requestError "timeout")

/-- A sample cumulative performance snapshot. -/
def sampleCum : CumulativePerformance :=
  ⟨1000, 950, 0, 50, 0, 50, -50, 0, 0, [positionA]⟩

/-- A sample today's-performance period holding one transaction and one order,
both timestamped 30. -/
def sampleToday : TodaysPerformance :=
  ⟨1000, 0, 0, [positionA], [(30, [⟨1, 30⟩])], [(30, [⟨7, 30⟩])]⟩

/-- A sample performance tracker. -/
def sampleTracker : PerformanceTracker :=
  ⟨0, 100, 1000, 1, sampleCum, sampleToday, [("sharpe", StatsVal.num 0)]⟩

/-- Sample position statistics. -/
def samplePosStats : PositionStats := ⟨0, 10, 0, 10, 1, 0⟩

/-- Sample leverage figures. -/
def sampleLeverage : PeriodLeverage := ⟨0, 0⟩

/-- A running live algorithm with an analyze callback configured and one
daily checkpoint on disk. -/
def startedState : LiveAlgoState :=
  ⟨true, true, [[("pnl", StatsVal.num 1)]], [], [], 0⟩

end Catalyst

namespace Catalyst

/-! ## Claim theorems for order-parameter conversion -/

/-- C9: every order request carrying a truthy stop_price is rejected eagerly
with `OrderTypeNotSupported(order_type='stop')` by the (pure, network-free)
parameter-conversion step, whatever the other arguments are. -/
theorem C9_stop_price_rejected_eagerly
    (limit_price stop_price : Option ℚ) (style : Option ExecutionStyle)
    (h : truthy stop_price = true) :
    convert_order_params_for_blotter limit_price stop_price style =
      Except.error (OrderParamError.orderTypeNotSupported "stop") := by
  simp [convert_order_params_for_blotter, h]

/-- Witness for C9 at a concrete input: stop price 10 is truthy and rejected. -/
theorem C9_witness :
    truthy (some 10) = true ∧
    convert_order_params_for_blotter none (some 10) none =
      Except.error (OrderParamError.orderTypeNotSupported "stop") :=
  ⟨by decide, C9_stop_price_rejected_eagerly none (some 10) none (by decide)⟩

/-- C10 (implicit): with stop_price falsy and any style object given, the
conversion always raises — ValueError when a limit price is also given, and
otherwise `OrderTypeNotSupported` for every style (including
`ExchangeLimitOrder` and `MarketOrder` instances), because the check
`not isinstance(style, ExchangeLimitOrder) or not isinstance(style, MarketOrder)`
demands an instance of both classes at once.  Consequently a style object
never produces an accepted order, and a limit order can only be expressed via
the limit_price argument. -/
theorem C10_style_always_rejected
    (s : ExecutionStyle) (limit_price stop_price : Option ℚ)
    (hsp : truthy stop_price = false) :
    (limit_price ≠ none →
      convert_order_params_for_blotter limit_price stop_price (some s) =
        Except.error (OrderParamError.valueError conflict_msg)) ∧
    (limit_price = none →
      convert_order_params_for_blotter limit_price stop_price (some s) =
        Except.error
          (OrderParamError.orderTypeNotSupported (styleClassName s))) ∧
    (∀ r, convert_order_params_for_blotter limit_price stop_price (some s) ≠
        Except.ok r) ∧
    (∀ p : ℚ, p ≠ 0 →
      convert_order_params_for_blotter (some p) stop_price none =
        Except.ok (ExecutionStyle.exchangeLimitOrder p)) := by
  have hboth : (!isinstance_ExchangeLimitOrder s || !isinstance_MarketOrder s)
      = true := by
    cases s <;> rfl
  refine ⟨?_, ?_, ?_, ?_⟩
  · intro hlp
    simp [convert_order_params_for_blotter, hsp, hlp, hboth]
  · intro hlp
    simp [convert_order_params_for_blotter, hsp, hlp, hboth]
  · intro r hok
    by_cases hlp : limit_price = none
    · simp [convert_order_params_for_blotter, hsp, hlp, hboth] at hok
    · simp [convert_order_params_for_blotter, hsp, hlp, hboth] at hok
  · intro p hp
    have ht : truthy (some p) = true := by simp [truthy, hp]
    simp [convert_order_params_for_blotter, hsp, ht]

/-- Witness for C10 at concrete inputs: an `ExchangeLimitOrder` style object is
rejected even with no limit price, a `MarketOrder` style object with a limit
price gets the ValueError, and a plain limit price of 5 is accepted. -/
theorem C10_witness :
    convert_order_params_for_blotter none none
        (some (ExecutionStyle.exchangeLimitOrder 10)) =
      Except.error
        (OrderParamError.orderTypeNotSupported "ExchangeLimitOrder") ∧
    convert_order_params_for_blotter (some 5) none
        (some ExecutionStyle.marketOrder) =
      Except.error (OrderParamError.valueError conflict_msg) ∧
    convert_order_params_for_blotter (some 5) none none =
      Except.ok (ExecutionStyle.exchangeLimitOrder 5) := by
  refine ⟨?_, ?_, ?_⟩
  · exact (C10_style_always_rejected (ExecutionStyle.exchangeLimitOrder 10)
      none none (by decide)).2.1 rfl
  · exact (C10_style_always_rejected ExecutionStyle.marketOrder
      (some 5) none (by decide)).1 (by simp)
  · exact (C10_style_always_rejected ExecutionStyle.marketOrder
      (some 5) none (by decide)).2.2.2 5 (by norm_num)

/-! ## Helper lemmas for portfolio reconciliation -/

theorem syncLoop_forall2_ok (snapshot : List Position) (cb : Bool) (cash : ℚ)
    {exs : List Exchange} {outs : List SyncOutput}
    (h : List.Forall₂ (fun e o =>
      Exchange.sync_positions e (syncArgs snapshot e.name) cb cash =
        Except.ok o) exs outs) :
    ∀ tc tv tr, syncLoop snapshot cb cash exs tc tv tr =
      (Except.ok (tc + (outs.map SyncOutput.cash).sum,
          tv + (outs.map SyncOutput.positions_value).sum),
        outs.foldl applySync tr) := by
  induction h with
  | nil => intro tc tv tr; simp [syncLoop]
  | cons he _ ih =>
    intro tc tv tr
    simp only [syncLoop, he, List.map_cons, List.sum_cons, List.foldl_cons]
    rw [ih]
    simp [add_assoc]

theorem syncLoop_forall2_error (snapshot : List Position) (cb : Bool)
    (cash : ℚ) {pre : List Exchange} {outs : List SyncOutput}
    (h : List.Forall₂ (fun e o =>
      Exchange.sync_positions e (syncArgs snapshot e.name) cb cash =
        Except.ok o) pre outs)
    (x : Exchange) (post : List Exchange) (err : ExchangeError)
    (hx : Exchange.sync_positions x (syncArgs snapshot x.name) cb cash =
      Except.error err) :
    ∀ tc tv tr, syncLoop snapshot cb cash (pre ++ x :: post) tc tv tr =
      (Except.error err, outs.foldl applySync tr) := by
  induction h with
  | nil => intro tc tv tr; simp [syncLoop, hx]
  | cons he _ ih =>
    intro tc tv tr
    simp only [List.cons_append, syncLoop, he, List.foldl_cons]
    exact ih _ _ _

theorem lookupPosition_some_asset {l : List Position} {a : Asset}
    {p : Position} (h : lookupPosition l a = some p) : p.asset = a := by
  induction l with
  | nil => simp [lookupPosition] at h
  | cons q rest ih =>
    by_cases hq : q.asset = a
    · simp only [lookupPosition, hq, if_pos, Option.some.injEq] at h
      rw [← h]
      exact hq
    · simp only [lookupPosition, hq, if_false, ite_false] at h
      exact ih h

theorem mem_syncArgs_exchange {snapshot : List Position} {n : String}
    {p : Position} (h : p ∈ syncArgs snapshot n) : p.asset.exchange = n := by
  rw [syncArgs, List.mem_filterMap] at h
  obtain ⟨a, ha, hl⟩ := h
  rw [group_assets_by_exchange, List.mem_filter] at ha
  rw [lookupPosition_some_asset hl]
  exact of_decide_eq_true ha.2

theorem lookupPosition_update_position_ne {l : List Position} {a b : Asset}
    {am pr : ℚ} {d : Int} (h : b ≠ a) :
    lookupPosition (update_position l a am pr d) b = lookupPosition l b := by
  induction l with
  | nil =>
    simp only [update_position, lookupPosition]
    rw [if_neg (fun hh => h hh.symm)]
  | cons q rest ih =>
    by_cases hq : q.asset = a
    · simp only [update_position, hq, if_pos, lookupPosition]
      rw [if_neg (fun hh => h hh.symm), if_neg (fun hh => h hh.symm)]
    · simp only [update_position, hq, ite_false, lookupPosition]
      rw [ih]

theorem lookupPosition_fold_updates_ne {a : Asset} {n : String} :
    ∀ (ps : List Position) (tracker : List Position),
    (∀ p ∈ ps, p.asset.exchange = n) → a.exchange ≠ n →
    lookupPosition
        (ps.foldl (fun t p => update_position t p.asset p.amount
          p.last_sale_price p.last_sale_date) tracker) a =
      lookupPosition tracker a
  | [], _, _, _ => rfl
  | p :: rest, tracker, hps, ha => by
    rw [List.foldl_cons]
    rw [lookupPosition_fold_updates_ne rest _
      (fun q hq => hps q (List.mem_cons_of_mem _ hq)) ha]
    exact lookupPosition_update_position_ne
      (fun he => ha (by rw [he, hps p (List.mem_cons_self _ _)]))

theorem syncLoop_foreign_asset_untouched (snapshot : List Position) (cb : Bool)
    (cash : ℚ) {a : Asset} :
    ∀ (exs : List Exchange) (tc tv : ℚ) (tracker : List Position),
    (∀ e ∈ exs, ∀ ps cb2 c out,
      Exchange.sync_positions e ps cb2 c = Except.ok out →
      ∀ p ∈ out.positions, p.asset ∈ ps.map Position.asset) →
    (∀ e ∈ exs, e.name ≠ a.exchange) →
    lookupPosition (syncLoop snapshot cb cash exs tc tv tracker).2 a =
      lookupPosition tracker a
  | [], _, _, _, _, _ => rfl
  | e :: rest, tc, tv, tracker, hscope, hname => by
    cases hse : Exchange.sync_positions e (syncArgs snapshot e.name) cb cash
        with
    | error err => simp only [syncLoop, hse]
    | ok out =>
      simp only [syncLoop, hse]
      rw [syncLoop_foreign_asset_untouched snapshot cb cash rest _ _ _
        (fun e' he' => hscope e' (List.mem_cons_of_mem _ he'))
        (fun e' he' => hname e' (List.mem_cons_of_mem _ he'))]
      apply lookupPosition_fold_updates_ne out.positions tracker
      · intro p hp
        have hmem := hscope e (List.mem_cons_self _ _) _ cb cash out hse p hp
        rw [List.mem_map] at hmem
        obtain ⟨q, hq, hqa⟩ := hmem
        rw [← hqa]
        exact mem_syncArgs_exchange hq
      · exact (hname e (List.mem_cons_self _ _)).symm

theorem lookupPosition_update_position_self {l : List Position} {a : Asset}
    {am pr : ℚ} {d : Int} :
    lookupPosition (update_position l a am pr d) a = some ⟨a, am, pr, d⟩ := by
  induction l with
  | nil => simp [update_position, lookupPosition]
  | cons q rest ih =>
    by_cases hq : q.asset = a
    · simp [update_position, hq, lookupPosition]
    · simp [update_position, hq, lookupPosition, ih]

theorem lookupPosition_fold_updates_not_mem {a : Asset} :
    ∀ (ps : List Position) (tracker : List Position),
    (∀ p ∈ ps, p.asset ≠ a) →
    lookupPosition
        (ps.foldl (fun t p => update_position t p.asset p.amount
          p.last_sale_price p.last_sale_date) tracker) a =
      lookupPosition tracker a
  | [], _, _ => rfl
  | p :: rest, tracker, hps => by
    rw [List.foldl_cons]
    rw [lookupPosition_fold_updates_not_mem rest _
      (fun q hq => hps q (List.mem_cons_of_mem _ hq))]
    exact lookupPosition_update_position_ne
      (fun he => hps p (List.mem_cons_self _ _) he.symm)

theorem lookupPosition_fold_updates_last {a : Asset} :
    ∀ (ps : List Position) (tracker : List Position),
    (∃ p ∈ ps, p.asset = a) →
    ∃ q, q ∈ ps ∧ q.asset = a ∧
      lookupPosition
          (ps.foldl (fun t p => update_position t p.asset p.amount
            p.last_sale_price p.last_sale_date) tracker) a =
        some q
  | [], _, h => absurd h (by simp)
  | p :: rest, tracker, h => by
    rw [List.foldl_cons]
    by_cases hrest : ∃ q ∈ rest, q.asset = a
    · obtain ⟨q, hq, hqa, heq⟩ :=
        lookupPosition_fold_updates_last rest
          (update_position tracker p.asset p.amount p.last_sale_price
            p.last_sale_date) hrest
      exact ⟨q, List.mem_cons_of_mem _ hq, hqa, heq⟩
    · push_neg at hrest
      have hpa : p.asset = a := by
        obtain ⟨p0, hp0, hp0a⟩ := h
        rcases List.mem_cons.mp hp0 with rfl | hp0r
        · exact hp0a
        · exact absurd hp0a (hrest p0 hp0r)
      refine ⟨p, List.mem_cons_self _ _, hpa, ?_⟩
      rw [lookupPosition_fold_updates_not_mem rest _ hrest]
      rw [← hpa]
      exact lookupPosition_update_position_self

theorem lookupPosition_applySync_self {tracker : List Position}
    {out : SyncOutput} (hnd : (out.positions.map Position.asset).Nodup)
    {p : Position} (hp : p ∈ out.positions) :
    lookupPosition (applySync tracker out) p.asset = some p := by
  obtain ⟨q, hq, hqa, heq⟩ :=
    lookupPosition_fold_updates_last out.positions tracker ⟨p, hp, rfl⟩
  have heq2 : lookupPosition (applySync tracker out) p.asset = some q := heq
  have hqp : q = p := List.inj_on_of_nodup_map hnd hq hp hqa
  rw [heq2, hqp]

theorem syncLoop_update_provenance (snapshot : List Position) (cb : Bool)
    (cash : ℚ) {a : Asset} :
    ∀ (exs : List Exchange) (tc tv : ℚ) (tracker : List Position),
    (∀ e ∈ exs, ∀ ps cb2 c out,
      Exchange.sync_positions e ps cb2 c = Except.ok out →
      ∀ p ∈ out.positions, p.asset ∈ ps.map Position.asset) →
    lookupPosition (syncLoop snapshot cb cash exs tc tv tracker).2 a =
      lookupPosition tracker a ∨
    ∃ e ∈ exs, e.name = a.exchange ∧
      ∃ out, Exchange.sync_positions e (syncArgs snapshot e.name) cb cash =
          Except.ok out ∧
        ∃ p ∈ out.positions, p.asset = a ∧
          lookupPosition (syncLoop snapshot cb cash exs tc tv tracker).2 a =
            some p
  | [], _, _, _, _ => Or.inl rfl
  | e :: rest, tc, tv, tracker, hscope => by
    cases hse : Exchange.sync_positions e (syncArgs snapshot e.name) cb cash
        with
    | error err =>
      refine Or.inl ?_
      simp only [syncLoop, hse]
    | ok out =>
      simp only [syncLoop, hse]
      have ih := @syncLoop_update_provenance snapshot cb cash a rest
        (tc + out.cash) (tv + out.positions_value) (applySync tracker out)
        (fun e' he' => hscope e' (List.mem_cons_of_mem _ he'))
      rcases ih with heq | ⟨e', he', hname, out', hsync', p, hp, hpa, hlook⟩
      · by_cases hmem : ∃ p ∈ out.positions, p.asset = a
        · obtain ⟨q, hq, hqa, hlookq⟩ :=
            lookupPosition_fold_updates_last out.positions tracker hmem
          have hlookq2 : lookupPosition (applySync tracker out) a = some q :=
            hlookq
          refine Or.inr ⟨e, List.mem_cons_self _ _, ?_, out, hse, q, hq, hqa,
            ?_⟩
          · have hqs := hscope e (List.mem_cons_self _ _) _ cb cash out hse
              q hq
            rw [List.mem_map] at hqs
            obtain ⟨r, hr, hra⟩ := hqs
            have hre := mem_syncArgs_exchange hr
            rw [hra, hqa] at hre
            exact hre.symm
          · rw [heq]
            exact hlookq2
        · push_neg at hmem
          refine Or.inl ?_
          rw [heq]
          exact lookupPosition_fold_updates_not_mem out.positions tracker hmem
      · exact Or.inr ⟨e', List.mem_cons_of_mem _ he', hname, out', hsync', p,
          hp, hpa, hlook⟩

theorem syncLoop_applies_own_sync (snapshot : List Position) (cb : Bool)
    (cash : ℚ) :
    ∀ (exs : List Exchange) (tc tv : ℚ) (tracker : List Position),
    (∀ e ∈ exs, ∀ ps cb2 c out,
      Exchange.sync_positions e ps cb2 c = Except.ok out →
      ∀ p ∈ out.positions, p.asset ∈ ps.map Position.asset) →
    (exs.map Exchange.name).Nodup →
    (∀ e ∈ exs, ∃ out,
      Exchange.sync_positions e (syncArgs snapshot e.name) cb cash =
        Except.ok out) →
    ∀ e ∈ exs, ∀ out,
      Exchange.sync_positions e (syncArgs snapshot e.name) cb cash =
        Except.ok out →
      (out.positions.map Position.asset).Nodup →
      ∀ p ∈ out.positions,
        lookupPosition (syncLoop snapshot cb cash exs tc tv tracker).2
          p.asset = some p
  | [], _, _, _, _, _, _ => fun e he => absurd he (List.not_mem_nil e)
  | e0 :: rest, tc, tv, tracker, hscope, hnodup, hall => by
    intro e he out hsync hnd p hp
    obtain ⟨out0, hsync0⟩ := hall e0 (List.mem_cons_self _ _)
    simp only [syncLoop, hsync0]
    rcases List.mem_cons.mp he with rfl | her
    · have hout : out0 = out := by
        have h2 := hsync
        rw [hsync0] at h2
        exact Except.ok.inj h2
      rw [hout]
      have hpe : p.asset.exchange = e.name := by
        have hs := hscope e (List.mem_cons_self _ _) _ cb cash out hsync
          p hp
        rw [List.mem_map] at hs
        obtain ⟨r, hr, hra⟩ := hs
        rw [← hra]
        exact mem_syncArgs_exchange hr
      have hname : ∀ e' ∈ rest, e'.name ≠ p.asset.exchange := by
        intro e' he' hcontra
        rw [hpe] at hcontra
        rw [List.map_cons, List.nodup_cons] at hnodup
        exact hnodup.1 (hcontra ▸ List.mem_map_of_mem Exchange.name he')
      rw [syncLoop_foreign_asset_untouched snapshot cb cash rest _ _ _
        (fun e' he' => hscope e' (List.mem_cons_of_mem _ he')) hname]
      exact lookupPosition_applySync_self hnd hp
    · exact syncLoop_applies_own_sync snapshot cb cash rest
        (tc + out0.cash) (tv + out0.positions_value) (applySync tracker out0)
        (fun e' he' => hscope e' (List.mem_cons_of_mem _ he'))
        (by rw [List.map_cons, List.nodup_cons] at hnodup; exact hnodup.2)
        (fun e' he' => hall e' (List.mem_cons_of_mem _ he'))
        e her out hsync hnd p hp

theorem synchronize_portfolio_positions_eq (st : AlgoState)
    (exs : List Exchange) :
    (synchronize_portfolio st exs).2.positions =
      (syncLoop st.positions (!st.simulate_orders) st.cash exs 0 0
        st.positions).2 := by
  simp only [synchronize_portfolio]
  cases hres : syncLoop st.positions (!st.simulate_orders) st.cash exs 0 0
      st.positions with
  | mk r tracker =>
    cases r with
    | error e => rfl
    | ok totals =>
      obtain ⟨tc, tv⟩ := totals
      rfl

/-! ## Claim theorems for portfolio reconciliation -/

/-- C1: with check_balances true (simulate_orders false) and every
`sync_positions` call succeeding, `synchronize_portfolio` returns the sum of
the per-exchange cash values as its total cash and the sum of the
per-exchange positions_value values as its total positions value. -/
theorem C1_totals_are_sums (st : AlgoState) (exs : List Exchange)
    (outs : List SyncOutput)
    (hsim : st.simulate_orders = false)
    (hok : List.Forall₂ (fun e o =>
      Exchange.sync_positions e (syncArgs st.positions e.name) true st.cash =
        Except.ok o) exs outs) :
    (synchronize_portfolio st exs).1 =
      Except.ok ((outs.map SyncOutput.cash).sum,
        (outs.map SyncOutput.positions_value).sum) := by
  simp only [synchronize_portfolio, hsim, Bool.not_false]
  rw [syncLoop_forall2_ok st.positions true st.cash hok 0 0 st.positions]
  simp

/-- Witness for C1: the spec's example scenario — exchange A reports cash 100
and positions_value 50, exchange B reports cash 20 and positions_value 5, and
the reconciled totals are cash 120, positions_value 55. -/
theorem C1_witness :
    (synchronize_portfolio liveState [exchangeA, exchangeB]).1 =
      Except.ok (120, 55) := by
  have hok : List.Forall₂ (fun e o =>
      Exchange.sync_positions e (syncArgs liveState.positions e.name) true
        liveState.cash = Except.ok o)
      [exchangeA, exchangeB]
      [⟨100, 50, [⟨assetA, 2, 10, 0⟩]⟩, ⟨20, 5, [positionB]⟩] := by
    refine List.Forall₂.cons ?_ (List.Forall₂.cons ?_ List.Forall₂.nil) <;> rfl
  rw [C1_totals_are_sums liveState [exchangeA, exchangeB] _ rfl hok]
  norm_num

/-- C2: in simulated-order mode, whatever cash the gateways return, the total
cash returned by `synchronize_portfolio` is the portfolio's locally tracked
cash, and the state's cash field is unchanged by reconciliation. -/
theorem C2_simulated_cash_preserved (st : AlgoState) (exs : List Exchange)
    (hsim : st.simulate_orders = true) :
    (∀ tc tv, (synchronize_portfolio st exs).1 = Except.ok (tc, tv) →
      tc = st.cash) ∧
    (synchronize_portfolio st exs).2.cash = st.cash := by
  simp only [synchronize_portfolio, hsim, Bool.not_true]
  cases hres : syncLoop st.positions false st.cash exs 0 0 st.positions with
  | mk r tracker =>
    cases r with
    | error e => simp
    | ok totals =>
      obtain ⟨tc, tv⟩ := totals
      refine ⟨?_, rfl⟩
      intro tc' tv' h
      simp only [Bool.not_false, if_true, Except.ok.injEq, Prod.mk.injEq] at h
      exact h.1.symm

/-- Witness for C2: with both gateways reporting nonzero cash, the simulated
state's tracked cash of 1000 is returned and kept. -/
theorem C2_witness :
    ((synchronize_portfolio simState [exchangeA, exchangeB]).1 =
        Except.ok (1000, 55) →
      (1000 : ℚ) = simState.cash) ∧
    (synchronize_portfolio simState [exchangeA, exchangeB]).2.cash =
      simState.cash := by
  have h := C2_simulated_cash_preserved simState [exchangeA, exchangeB] rfl
  exact ⟨fun hh => h.1 1000 55 hh, h.2⟩

/-- Counterexample for C3 as stated: with the bitfinex gateway succeeding
first and the poloniex gateway then raising a fatal error, the error is
propagated but the bitfinex position has already been modified in the ledger
— the merge is partial, contradicting "no position of any exchange has been
modified". -/
theorem C3_counterexample :
    (synchronize_portfolio stSmall [exchangeA, exchangeFatal]).1 =
      Except.error (ExchangeError.fatalError "invalid credentials") ∧
    (synchronize_portfolio stSmall [exchangeA, exchangeFatal]).2.positions ≠
      stSmall.positions := by
  refine ⟨rfl, ?_⟩
  decide

/-- C3 amended: a fatal sync error for exchange X aborts the tick's
reconciliation with the error propagated to the caller, and no exchange at or
after X is merged, but the merges of exchanges processed before X in the
iteration order remain applied to the ledger (the partial merge persists). -/
theorem C3_amended_partial_merge (st : AlgoState) (pre post : List Exchange)
    (x : Exchange) (outs : List SyncOutput) (err : ExchangeError)
    (hok : List.Forall₂ (fun e o =>
      Exchange.sync_positions e (syncArgs st.positions e.name)
        (!st.simulate_orders) st.cash = Except.ok o) pre outs)
    (hx : Exchange.sync_positions x (syncArgs st.positions x.name)
      (!st.simulate_orders) st.cash = Except.error err) :
    (synchronize_portfolio st (pre ++ x :: post)).1 = Except.error err ∧
    (synchronize_portfolio st (pre ++ x :: post)).2.positions =
      outs.foldl applySync st.positions := by
  simp only [synchronize_portfolio]
  rw [syncLoop_forall2_error st.positions (!st.simulate_orders) st.cash hok x
    post err hx 0 0 st.positions]
  exact ⟨rfl, rfl⟩

/-- Witness for C3's amended statement at the counterexample input: the error
propagates and the ledger holds exactly the bitfinex merge. -/
theorem C3_witness :
    (synchronize_portfolio stSmall [exchangeA, exchangeFatal]).1 =
      Except.error (ExchangeError.fatalError "invalid credentials") ∧
    (synchronize_portfolio stSmall [exchangeA, exchangeFatal]).2.positions =
      [⟨assetA, 2, 10, 0⟩] := by
  have h := C3_amended_partial_merge stSmall [exchangeA] [] exchangeFatal
    [⟨100, 50, [⟨assetA, 2, 10, 0⟩]⟩]
    (ExchangeError.fatalError "invalid credentials")
    (List.Forall₂.cons rfl List.Forall₂.nil) rfl
  exact ⟨h.1, h.2.trans rfl⟩

/-- C7: under the gateway contract that a sync result only reports positions
for assets it was handed, reconciliation updates ledger positions exactly
from the owning exchange's sync result.  (i) Every ledger entry is either
left unchanged or holds a position record taken from the sync output of an
exchange named after the asset's own exchange — so no position, whether its
exchange is configured in this run or not, is ever overwritten with data
produced by a different exchange's ExchangeSyncResult.  (ii) Conversely, when
every sync succeeds (with exchange names and reported assets distinct, as
Python dict keys are), every position of an exchange's sync result is applied
to the ledger. -/
theorem C7_updates_exactly_own_exchange (st : AlgoState) (exs : List Exchange)
    (hscope : ∀ e ∈ exs, ∀ ps cb c out,
      Exchange.sync_positions e ps cb c = Except.ok out →
      ∀ p ∈ out.positions, p.asset ∈ ps.map Position.asset) :
    (∀ a : Asset,
      lookupPosition (synchronize_portfolio st exs).2.positions a =
        lookupPosition st.positions a ∨
      ∃ e ∈ exs, e.name = a.exchange ∧
        ∃ out, Exchange.sync_positions e (syncArgs st.positions e.name)
            (!st.simulate_orders) st.cash = Except.ok out ∧
          ∃ p ∈ out.positions, p.asset = a ∧
            lookupPosition (synchronize_portfolio st exs).2.positions a =
              some p) ∧
    ((exs.map Exchange.name).Nodup →
      (∀ e ∈ exs, ∃ out,
        Exchange.sync_positions e (syncArgs st.positions e.name)
          (!st.simulate_orders) st.cash = Except.ok out) →
      ∀ e ∈ exs, ∀ out,
        Exchange.sync_positions e (syncArgs st.positions e.name)
          (!st.simulate_orders) st.cash = Except.ok out →
        (out.positions.map Position.asset).Nodup →
        ∀ p ∈ out.positions,
          lookupPosition (synchronize_portfolio st exs).2.positions p.asset =
            some p) := by
  constructor
  · intro a
    rw [synchronize_portfolio_positions_eq]
    exact syncLoop_update_provenance st.positions (!st.simulate_orders)
      st.cash exs 0 0 st.positions hscope
  · intro hnodup hall e he out hsync hnd p hp
    rw [synchronize_portfolio_positions_eq]
    exact syncLoop_applies_own_sync st.positions (!st.simulate_orders) st.cash
      exs 0 0 st.positions hscope hnodup hall e he out hsync hnd p hp

/-- Witness for C7: in a two-exchange run, the bitfinex asset's ledger entry
ends up holding exactly the record of the bitfinex sync result (amount
bumped to 2) and the poloniex asset's entry exactly the record of the
poloniex sync result — each from its own exchange, neither from the other. -/
theorem C7_witness :
    lookupPosition (synchronize_portfolio liveState
        [exchangeA, exchangeB]).2.positions assetA =
      some ⟨assetA, 2, 10, 0⟩ ∧
    lookupPosition (synchronize_portfolio liveState
        [exchangeA, exchangeB]).2.positions assetB = some positionB := by
  have hscope : ∀ e ∈ [exchangeA, exchangeB], ∀ ps cb c out,
      Exchange.sync_positions e ps cb c = Except.ok out →
      ∀ p ∈ out.positions, p.asset ∈ ps.map Position.asset := by
    intro e he ps cb c out hok p hp
    simp only [List.mem_cons, List.not_mem_nil, or_false] at he
    rcases he with rfl | rfl
    · simp only [exchangeA, Except.ok.injEq] at hok
      rw [← hok] at hp
      simp only [List.mem_map] at hp
      obtain ⟨q, hq, hqa⟩ := hp
      rw [← hqa]
      show q.asset ∈ ps.map Position.asset
      exact List.mem_map_of_mem Position.asset hq
    · simp only [exchangeB, Except.ok.injEq] at hok
      rw [← hok] at hp
      exact List.mem_map_of_mem Position.asset hp
  have h := (C7_updates_exactly_own_exchange liveState
    [exchangeA, exchangeB] hscope).2 (by decide)
    (fun e he => by
      simp only [List.mem_cons, List.not_mem_nil, or_false] at he
      rcases he with rfl | rfl
      · exact ⟨_, rfl⟩
      · exact ⟨_, rfl⟩)
  constructor
  · exact h exchangeA (List.mem_cons_self _ _) ⟨100, 50, [⟨assetA, 2, 10, 0⟩]⟩
      rfl (by decide) ⟨assetA, 2, 10, 0⟩ (List.mem_singleton.mpr rfl)
  · exact h exchangeB (List.mem_cons_of_mem _ (List.mem_cons_self _ _))
      ⟨20, 5, [positionB]⟩ rfl (by decide) positionB
      (List.mem_singleton.mpr rfl)

/-! ## Helper lemma for the retry combinator -/

theorem retryGo_error_characterization {α : Type}
    (action : Nat → Except ExchangeError α) (retryable : ExchangeError → Bool)
    (sleeptime : Nat) :
    ∀ (n k0 k : Nat) (e : ExchangeError), k < n →
    (∀ j, j < k → ∃ ej, action (k0 + j) = Except.error ej ∧
      retryable ej = true) →
    action (k0 + k) = Except.error e →
    (retryable e = false ∨ k + 1 = n) →
    retryGo action retryable sleeptime k0 n =
      ⟨Except.error e, k + 1, List.replicate k sleeptime⟩ := by
  intro n
  induction n with
  | zero => intro k0 k e hk; exact absurd hk (Nat.not_lt_zero k)
  | succ m ih =>
    intro k0 k e hk hpre hact hlast
    cases m with
    | zero =>
      have hk0 : k = 0 := Nat.lt_one_iff.mp hk
      subst hk0
      rw [Nat.add_zero] at hact
      show retryGo action retryable sleeptime k0 1 = _
      simp [retryGo, hact, List.replicate]
    | succ m' =>
      cases k with
      | zero =>
        rw [Nat.add_zero] at hact
        have hre : retryable e = false := by
          cases hlast with
          | inl h => exact h
          | inr h => omega
        show retryGo action retryable sleeptime k0 (m' + 2) = _
        simp [retryGo, hact, hre, List.replicate]
      | succ j =>
        obtain ⟨e0, he0, hre0⟩ := hpre 0 (Nat.succ_pos j)
        rw [Nat.add_zero] at he0
        have ht := ih (k0 + 1) j e (by omega)
          (fun i hi => by
            obtain ⟨ei, hei, hrei⟩ := hpre (i + 1) (by omega)
            refine ⟨ei, ?_, hrei⟩
            rw [show k0 + 1 + i = k0 + (i + 1) by omega]
            exact hei)
          (by rw [show k0 + 1 + j = k0 + (j + 1) by omega]; exact hact)
          (by
            cases hlast with
            | inl h => exact Or.inl h
            | inr h => exact Or.inr (by omega))
        show retryGo action retryable sleeptime k0 (m' + 2) = _
        simp only [retryGo, he0, hre0, if_true, ht]
        simp [List.replicate_succ]

/-! ## Claim theorems for retry, checkpoint resume, shutdown and stats -/

/-- C4: the `handle_data` portfolio-sync retry loop retries only on
`ExchangeRequestError`, with a fixed sleep of 5 between attempts, and at most
5 total attempts: if the first k calls fail with request errors and call k
fails with error e that is either non-retryable or the fifth attempt, then
the call is made exactly k+1 ≤ 5 times, k fixed-interval sleeps are taken,
and the last error is surfaced to the caller. -/
theorem C4_handle_data_retry_policy {α : Type}
    (action : Nat → Except ExchangeError α) (k : Nat) (e : ExchangeError)
    (hk : k < 5)
    (hpre : ∀ j, j < k →
      ∃ m, action j = Except.error (ExchangeError.requestError m))
    (hact : action k = Except.error e)
    (hstop : is_exchange_request_error e = false ∨ k = 4) :
    handle_data_portfolio_sync action =
      ⟨Except.error e, k + 1, List.replicate k retry_sleeptime⟩ := by
  have h := retryGo_error_characterization action is_exchange_request_error
    retry_sleeptime 5 0 k e hk
    (fun j hj => by
      obtain ⟨m, hm⟩ := hpre j hj
      refine ⟨ExchangeError.requestError m, ?_, rfl⟩
      rw [Nat.zero_add]
      exact hm)
    (by rw [Nat.zero_add]; exact hact)
    (by
      cases hstop with
      | inl h => exact Or.inl h
      | inr h => exact Or.inr (by omega))
  exact h

/-- Witness for C4: an action failing with a transient request error on every
call is invoked exactly 5 times with four sleeps of 5 in between, and the
last error is surfaced. -/
theorem C4_witness :
    handle_data_portfolio_sync transientAction =
      ⟨Except.error (ExchangeError.requestError "timeout"), 5, [5, 5, 5, 5]⟩ := by
  have h := C4_handle_data_retry_policy transientAction 4
    (ExchangeError.requestError "timeout") (by decide)
    (fun j _ => ⟨"timeout", rfl⟩) rfl (Or.inr rfl)
  rw [h]
  rfl

/-- C5: on startup, when the cumulative-performance checkpoint is found, the
tracker resumes from it — today's starting cash, value and position set are
the checkpoint's ending cash, ending value and position set, and the
cumulative performance is the checkpoint itself; when it is not found, the
freshly created tracker is used unchanged (cold start, no error).  Saving a
tracker's cumulative performance and reloading it after a simulated restart
reproduces the pre-restart ending_cash, ending_value and position set. -/
theorem C5_checkpoint_resume (tracker pre : PerformanceTracker)
    (p : CumulativePerformance) :
    ((resume_from_checkpoint tracker (some p)).todays_performance.starting_cash
        = p.ending_cash ∧
      (resume_from_checkpoint tracker
          (some p)).todays_performance.starting_value = p.ending_value ∧
      (resume_from_checkpoint tracker
          (some p)).todays_performance.position_tracker = p.position_tracker ∧
      (resume_from_checkpoint tracker (some p)).cumulative_performance = p) ∧
    resume_from_checkpoint tracker none = tracker ∧
    ((resume_from_checkpoint tracker
          (checkpoint_roundtrip
            pre.cumulative_performance)).cumulative_performance.ending_cash =
        pre.cumulative_performance.ending_cash ∧
      (resume_from_checkpoint tracker
          (checkpoint_roundtrip
            pre.cumulative_performance)).cumulative_performance.ending_value =
        pre.cumulative_performance.ending_value ∧
      (resume_from_checkpoint tracker
          (checkpoint_roundtrip
            pre.cumulative_performance)).todays_performance.position_tracker =
        pre.cumulative_performance.position_tracker) :=
  ⟨⟨rfl, rfl, rfl, rfl⟩, rfl, rfl, rfl, rfl⟩

/-- Counterexample for C6 as stated: delivering the termination signal twice
to a live algorithm with an analyze callback runs the final analysis twice,
not exactly once (the exit code is 0 both times, as claimed). -/
theorem C6_counterexample :
    (signal_handler (signal_handler startedState)).analyze_calls.length ≠ 1 ∧
    (signal_handler (signal_handler startedState)).exit_codes = [0, 0] := by
  decide

/-- C6 amended: each delivery of the termination signal runs the final
analysis once more (so two deliveries run it twice) and exits with code 0
each time; shutdown clears `is_running`, after which ticks (`handle_data`)
are ignored, but re-entrant termination signals are not ignored — nothing
guards `interrupt_algorithm` against re-entry. -/
theorem C6_amended_shutdown_not_idempotent (st : LiveAlgoState)
    (h1 : st.has_analyze = true) :
    (signal_handler st).analyze_calls.length = st.analyze_calls.length + 1 ∧
    (signal_handler (signal_handler st)).analyze_calls.length =
      st.analyze_calls.length + 2 ∧
    (signal_handler st).exit_codes = st.exit_codes ++ [0] ∧
    (signal_handler (signal_handler st)).exit_codes =
      st.exit_codes ++ [0, 0] ∧
    (signal_handler st).is_running = false ∧
    handle_data_live (signal_handler st) = signal_handler st := by
  simp [signal_handler, interrupt_algorithm, handle_data_live, h1,
    List.append_assoc]

/-- Witness for C6's amended statement: from the started state, two signals
yield two analysis runs, exit codes [0, 0], and a tick after the first
signal leaves the state unchanged. -/
theorem C6_witness :
    (signal_handler (signal_handler startedState)).analyze_calls.length = 2 ∧
    (signal_handler (signal_handler startedState)).exit_codes = [0, 0] ∧
    handle_data_live (signal_handler startedState) =
      signal_handler startedState := by
  have h := C6_amended_shutdown_not_idempotent startedState rfl
  exact ⟨h.2.1, h.2.2.2.1, h.2.2.2.2.2⟩

/-! ## Helper lemmas for period stats -/

theorem getKey_setKey_self (d : List (String × StatsVal)) (k : String)
    (v : StatsVal) : getKey (setKey d k v) k = some v := by
  induction d with
  | nil => simp [setKey, getKey]
  | cons kv rest ih =>
    by_cases hk : kv.1 = k
    · simp [setKey, hk, getKey]
    · simp [setKey, hk, getKey, ih]

theorem getKey_setKey_ne (d : List (String × StatsVal)) (k k' : String)
    (v : StatsVal) (h : k' ≠ k) :
    getKey (setKey d k v) k' = getKey d k' := by
  induction d with
  | nil =>
    simp only [setKey, getKey]
    rw [if_neg (fun hh => h hh.symm)]
  | cons kv rest ih =>
    by_cases hk : kv.1 = k
    · simp only [setKey, hk, if_pos, getKey]
      rw [if_neg (fun hh => h hh.symm), if_neg (fun hh => h hh.symm)]
    · simp only [setKey, hk, ite_false, getKey]
      by_cases hk' : kv.1 = k'
      · simp [hk']
      · simp [hk', ih]

theorem mem_foldl_append {β : Type} (x : β) :
    ∀ (l : List (Int × List β)) (acc : List β),
    x ∈ l.foldl (fun acc pr => acc ++ pr.2) acc ↔
      x ∈ acc ∨ ∃ pr ∈ l, x ∈ pr.2 := by
  intro l
  induction l with
  | nil => intro acc; simp
  | cons p rest ih =>
    intro acc
    rw [List.foldl_cons, ih]
    simp [List.mem_append, or_assoc]

theorem windowEntries_eq_nil {β : Type} {dict : List (Int × List β)}
    {s e : Int} (h : ∀ pr ∈ dict, ¬(s ≤ pr.1 ∧ pr.1 < e)) :
    windowEntries dict s e = [] := by
  rw [windowEntries]
  have hf : dict.filter
      (fun pr => decide (s ≤ pr.1) && decide (pr.1 < e)) = [] := by
    rw [List.filter_eq_nil_iff]
    intro pr hpr
    simp only [Bool.and_eq_true, decide_eq_true_eq, not_and]
    intro hle
    exact fun hlt => h pr hpr ⟨hle, hlt⟩
  rw [hf]
  rfl

theorem mem_windowEntries {β : Type} (dt : β → Int)
    {dict : List (Int × List β)} {s e : Int} {x : β}
    (hcons : ∀ pr ∈ dict, ∀ u ∈ pr.2, dt u = pr.1)
    (hx : x ∈ windowEntries dict s e) : s ≤ dt x ∧ dt x < e := by
  rw [windowEntries, mem_foldl_append] at hx
  rcases hx with h | ⟨pr, hpr, hxpr⟩
  · simp at h
  · rw [List.mem_filter] at hpr
    rw [hcons pr hpr.1 x hxpr]
    have h2 := hpr.2
    simp only [Bool.and_eq_true, decide_eq_true_eq] at h2
    exact h2

/-- C8: `prepare_period_stats` always binds the keys "transactions" and
"orders" (present, possibly empty — never absent); the bound lists contain
exactly the entries of dictionary dates in `[start_dt, end_dt)`, so a window
containing no processed transactions and no modified orders yields empty
lists, and every included transaction or order has
`start_dt <= timestamp < end_dt`. -/
theorem C8_period_stats_window (tracker : PerformanceTracker)
    (pos_stats : PositionStats) (leverage : PeriodLeverage)
    (recorded_vars : List (String × StatsVal)) (start_dt end_dt : Int)
    (hcons_t : ∀ pr ∈ tracker.todays_performance.processed_transactions,
      ∀ u ∈ pr.2, u.dt = pr.1)
    (hcons_o : ∀ pr ∈ tracker.todays_performance.orders_by_modified,
      ∀ u ∈ pr.2, u.dt = pr.1) :
    getKey (prepare_period_stats tracker pos_stats leverage recorded_vars
        start_dt end_dt) "transactions" =
      some (StatsVal.txnList (windowEntries
        tracker.todays_performance.processed_transactions start_dt end_dt)) ∧
    getKey (prepare_period_stats tracker pos_stats leverage recorded_vars
        start_dt end_dt) "orders" =
      some (StatsVal.ordList (windowEntries
        tracker.todays_performance.orders_by_modified start_dt end_dt)) ∧
    ((∀ pr ∈ tracker.todays_performance.processed_transactions,
        ¬(start_dt ≤ pr.1 ∧ pr.1 < end_dt)) →
      windowEntries tracker.todays_performance.processed_transactions
        start_dt end_dt = []) ∧
    ((∀ pr ∈ tracker.todays_performance.orders_by_modified,
        ¬(start_dt ≤ pr.1 ∧ pr.1 < end_dt)) →
      windowEntries tracker.todays_performance.orders_by_modified
        start_dt end_dt = []) ∧
    (∀ t ∈ windowEntries tracker.todays_performance.processed_transactions
        start_dt end_dt, start_dt ≤ t.dt ∧ t.dt < end_dt) ∧
    (∀ o ∈ windowEntries tracker.todays_performance.orders_by_modified
        start_dt end_dt, start_dt ≤ o.dt ∧ o.dt < end_dt) := by
  refine ⟨?_, ?_, windowEntries_eq_nil, windowEntries_eq_nil,
    fun t ht => mem_windowEntries Txn.dt hcons_t ht,
    fun o ho => mem_windowEntries OrderRec.dt hcons_o ho⟩
  · simp only [prepare_period_stats]
    rw [getKey_setKey_ne _ _ _ _ (by decide), getKey_setKey_self]
  · simp only [prepare_period_stats]
    rw [getKey_setKey_self]

/-- Witness for C8: over the window [0, 10), which contains neither the
transaction nor the order of the sample tracker (both stamped 30), both keys
are present and bound to empty lists. -/
theorem C8_witness :
    getKey (prepare_period_stats sampleTracker samplePosStats sampleLeverage
        [] 0 10) "transactions" = some (StatsVal.txnList []) ∧
    getKey (prepare_period_stats sampleTracker samplePosStats sampleLeverage
        [] 0 10) "orders" = some (StatsVal.ordList []) := by
  have h := C8_period_stats_window sampleTracker samplePosStats sampleLeverage
    [] 0 10 (by decide) (by decide)
  have hnt := h.2.2.1 (by decide)
  have hno := h.2.2.2.1 (by decide)
  refine ⟨?_, ?_⟩
  · rw [h.1, hnt]
  · rw [h.2.1, hno]

end Catalyst
